import Mathlib

/-!
# Verification of the tanchishe snake game engine (`src/app.js`)

This file gives a shallow embedding of the game engine (`class SnakeGame`) and
the score store (`const DataStore`) of `src/app.js`, and proves the spec's
claims about them.

Modelling conventions:
* JS integer-valued numbers (grid coordinates, scores, the tick interval in
  milliseconds) become `Int` or `Nat`; the food's spawn-in scale, which takes
  fractional values `0, 0.15, 0.3, …`, becomes `ℚ`.
* `Math.random()`-driven food sampling is made explicit: every operation that
  may regenerate the food receives a stream `rnd : Nat → Sample` of the values
  the source would have drawn.
* The `setInterval` timer handle becomes `gameLoop : Option Nat`, recording the
  interval at which the repeating timer was created (`none` = no timer).
* Callback invocations (`onScoreChange`, `onGameOver`) become an explicit list
  of `Event`s returned by the operations that fire them.
-/

namespace Tanchishe

/-- An integer pair: a grid cell `(x, y)` or a unit direction vector. -/
structure Pos where
  x : Int
  y : Int
deriving DecidableEq, Repr

/-- The food object built by `generateFood` (src/app.js:559-564):
cell `(x, y)`, a sprite kind, and the spawn-in animation scale. -/
structure Food where
  x : Int
  y : Int
  type : String
  scale : ℚ
deriving DecidableEq, Repr

/-- One round of random draws inside `generateFood`'s loop body:
the sampled cell and the index into the food-type list. -/
structure Sample where
  x : Int
  y : Int
  k : Nat

/-- Callback firings of the engine: `onScoreChange(score)` and
`onGameOver(score, canvas)` (the opaque canvas argument is dropped). -/
inductive Event where
  | scoreChange (score : Nat)
  | gameOver (score : Nat)
deriving DecidableEq, Repr

/-- The mutable fields of `class SnakeGame` that the simulation touches
(src/app.js:308-332).  `cols`/`rows` are the grid bounds fixed by the
constructor; `gameLoop = some n` means a repeating timer at interval `n`. -/
structure GameState where
  cols : Nat
  rows : Nat
  snake : List Pos
  food : Option Food
  direction : Pos
  nextDirection : Pos
  score : Nat
  gameLoop : Option Nat
  isRunning : Bool
  isPaused : Bool
  speed : Nat
deriving DecidableEq, Repr

/-- The state the `SnakeGame` constructor leaves behind
(src/app.js:323-332): empty snake, no food, heading right, score 0,
no timer, not running, speed 120. -/
def initialState (cols rows : Nat) : GameState where
  cols := cols
  rows := rows
  snake := []
  food := none
  direction := { x := 1, y := 0 }
  nextDirection := { x := 1, y := 0 }
  score := 0
  gameLoop := none
  isRunning := false
  isPaused := false
  speed := 120

-- ===================================
-- DataStore (src/app.js:9-188)
-- ===================================

/-- One entry of a user's score list (src/app.js:162-165). -/
structure ScoreRecord where
  score : Nat
  date : String
deriving DecidableEq, Repr

/-- A stored user record (src/app.js:89-94). -/
structure User where
  password : String
  loginHistory : List String
  scores : List ScoreRecord
deriving DecidableEq, Repr

/-- The `data.users` object of the store: a map from username to record. -/
def Users : Type := String → Option User

namespace DataStore

/-- `DataStore.getUser` (src/app.js:62-65): `data.users[username] || null`. -/
def getUser (users : Users) (username : String) : Option User :=
  users username

/-- `DataStore.saveUser` (src/app.js:118-122): `data.users[username] = userData`. -/
def saveUser (users : Users) (username : String) (u : User) : Users :=
  fun name => if name = username then some u else users name

/-- `DataStore.addScore` (src/app.js:158-174).  The `new Date().toISOString()`
the source stamps on the record is passed in as `date`. -/
def addScore (users : Users) (username : String) (score : Nat) (date : String) :
    Users :=
  match getUser users username with
  | none => users
  | some u =>
    let record : ScoreRecord := { score := score, date := date }
    let scores := record :: u.scores
    let scores := if 20 < scores.length then scores.take 20 else scores
    saveUser users username { u with scores := scores }

end DataStore

-- ===================================
-- SnakeGame (src/app.js:302-782)
-- ===================================

namespace SnakeGame

/-- `SnakeGame.isOnSnake` (src/app.js:575-577). -/
def isOnSnake (snake : List Pos) (x y : Int) : Bool :=
  snake.any fun segment => segment.x == x && segment.y == y

/-- The `types` array inside `generateFood` (src/app.js:558). -/
def foodTypes : List String :=
  ["apple", "hamster", "rabbit", "bird", "chicken", "duck"]

/-- The food object built by one iteration of `generateFood`'s loop body
(src/app.js:559-564): the sampled cell, `types[…]`, and `scale: 0`. -/
def sampleFood (s : Sample) : Food :=
  { x := s.x, y := s.y, type := foodTypes.getD s.k "apple", scale := 0 }

/-- The `do … while (this.isOnSnake(...) && attempts < maxAttempts)` loop of
`generateFood` (src/app.js:554-566), with `maxAttempts = 100`.  `attempts`
counts the samples already drawn; `remaining` is fuel making the recursion
structural — called with `attempts + remaining = 100` the `0` case is never
reached, because the guard `attempts + 1 < 100` stops the loop first. -/
def genFoodLoop (snake : List Pos) (rnd : Nat → Sample) :
    Nat → Nat → Food
  | attempts, 0 => sampleFood (rnd attempts)
  | attempts, remaining + 1 =>
    let f := sampleFood (rnd attempts)
    if isOnSnake snake f.x f.y ∧ attempts + 1 < 100 then
      genFoodLoop snake rnd (attempts + 1) remaining
    else f

/-- `SnakeGame.generateFood` (src/app.js:553-567): rejection sampling with at
most 100 attempts; the last sample is kept even if it is on the snake. -/
def generateFood (snake : List Pos) (rnd : Nat → Sample) : Food :=
  genFoodLoop snake rnd 0 100

/-- The `directions` lookup table of `setDirection` (src/app.js:532-537);
`none` for an unrecognized token. -/
def dirVec : String → Option Pos
  | "up" => some { x := 0, y := -1 }
  | "down" => some { x := 0, y := 1 }
  | "left" => some { x := -1, y := 0 }
  | "right" => some { x := 1, y := 0 }
  | _ => none

/-- `SnakeGame.setDirection` (src/app.js:531-548): ignore unknown tokens,
ignore the exact reverse of the currently applied direction, otherwise record
the new vector as the pending (`nextDirection`) direction.  Note the source
performs no check of the running/paused flags. -/
def setDirection (s : GameState) (dir : String) : GameState :=
  match dirVec dir with
  | none => s
  | some newDir =>
    if s.direction.x + newDir.x = 0 ∧ s.direction.y + newDir.y = 0 then s
    else { s with nextDirection := newDir }

/-- `SnakeGame.init` (src/app.js:451-476): 3-cell snake centered on the grid
heading right, score 0 (firing `onScoreChange(0)`), fresh food.  The running
flags, timer and speed are untouched. -/
def init (s : GameState) (rnd : Nat → Sample) : GameState × List Event :=
  let startX : Int := (s.cols / 2 : Nat)
  let startY : Int := (s.rows / 2 : Nat)
  let snake : List Pos :=
    [{ x := startX, y := startY },
     { x := startX - 1, y := startY },
     { x := startX - 2, y := startY }]
  let s1 := { s with
    snake := snake
    direction := { x := 1, y := 0 }
    nextDirection := { x := 1, y := 0 }
    score := 0 }
  let s2 := { s1 with food := some (generateFood s1.snake rnd) }
  (s2, [Event.scoreChange 0])

/-- `SnakeGame.stop` (src/app.js:518-525): clear both flags and the timer. -/
def stop (s : GameState) : GameState :=
  { s with isRunning := false, isPaused := false, gameLoop := none }

/-- `SnakeGame.pause` (src/app.js:497-503): a no-op unless running and not
already paused; otherwise set the paused flag and clear the timer. -/
def pause (s : GameState) : GameState :=
  if !s.isRunning || s.isPaused then s
  else { s with isPaused := true, gameLoop := none }

/-- `SnakeGame.resume` (src/app.js:508-513): a no-op unless paused; otherwise
clear the paused flag and restart the timer at the current speed. -/
def resume (s : GameState) : GameState :=
  if !s.isPaused then s
  else { s with isPaused := false, gameLoop := some s.speed }

/-- `SnakeGame.start` (src/app.js:481-492): no-op if running and not paused;
resume from pause without resetting, or `init()` from scratch; then set the
running flag and start the timer at the current speed. -/
def start (s : GameState) (rnd : Nat → Sample) : GameState × List Event :=
  if s.isRunning && !s.isPaused then (s, [])
  else
    let r := if s.isPaused then ({ s with isPaused := false }, ([] : List Event))
             else init s rnd
    ({ r.1 with isRunning := true, gameLoop := some r.1.speed }, r.2)

/-- `SnakeGame.gameOver` (src/app.js:643-649): `stop()` then fire
`onGameOver(score, canvas)`. -/
def gameOver (s : GameState) : GameState × List Event :=
  (stop s, [Event.gameOver s.score])

/-- The food spawn-in animation step at the end of `update`
(src/app.js:635-637): `if (food && food.scale < 1) scale = min(1, scale + 0.15)`. -/
def foodBump : Option Food → Option Food
  | some f => if f.scale < 1 then some { f with scale := min 1 (f.scale + 3/20) } else some f
  | none => none

/-- `SnakeGame.update` (src/app.js:582-638), one tick of the game loop:
apply the pending direction, compute the new head, end the game on a wall or
self collision, otherwise unshift the head; on eating the food add 10 to the
score (firing `onScoreChange`), regenerate the food and — above the 60ms floor
— speed up by 2ms restarting the timer, else pop the tail; finally advance the
food's spawn-in scale.  `this.snake[0]` is only read on a nonempty snake in
the source; `headD` supplies a dummy for the empty case, which no reachable
state exhibits.  When `food` is `null` the source would throw on
`this.food.x`; reachable ticks always have food, and the model treats that
case as a non-eating move. -/
def update (s0 : GameState) (rnd : Nat → Sample) : GameState × List Event :=
  let s := { s0 with direction := s0.nextDirection }
  let head := s.snake.headD { x := 0, y := 0 }
  let newHead : Pos := { x := head.x + s.direction.x, y := head.y + s.direction.y }
  if newHead.x < 0 ∨ (s.cols : Int) ≤ newHead.x ∨
      newHead.y < 0 ∨ (s.rows : Int) ≤ newHead.y then
    gameOver s
  else if isOnSnake s.snake newHead.x newHead.y then
    gameOver s
  else
    let grown := { s with snake := newHead :: s.snake }
    let stepped :=
      match grown.food with
      | some f =>
        if newHead.x = f.x ∧ newHead.y = f.y then
          let scored := { grown with score := grown.score + 10 }
          let fed := { scored with food := some (generateFood scored.snake rnd) }
          let sped :=
            if 60 < fed.speed then
              { fed with speed := fed.speed - 2, gameLoop := some (fed.speed - 2) }
            else fed
          (sped, [Event.scoreChange scored.score])
        else ({ grown with snake := grown.snake.dropLast }, ([] : List Event))
      | none => ({ grown with snake := grown.snake.dropLast }, ([] : List Event))
    ({ stepped.1 with food := foodBump stepped.1.food }, stepped.2)

/-- The head cell the next tick will move to: `snake[0] + nextDirection`
(the pending direction is applied before the head is computed,
src/app.js:583-591). -/
def newHeadOf (s : GameState) : Pos :=
  { x := (s.snake.headD { x := 0, y := 0 }).x + s.nextDirection.x,
    y := (s.snake.headD { x := 0, y := 0 }).y + s.nextDirection.y }

/-- Whether the next tick hits a wall or the snake itself
(the two collision tests of `update`, src/app.js:593-604). -/
def collides (s : GameState) : Bool :=
  decide ((newHeadOf s).x < 0 ∨ (s.cols : Int) ≤ (newHeadOf s).x ∨
    (newHeadOf s).y < 0 ∨ (s.rows : Int) ≤ (newHeadOf s).y)
  || isOnSnake s.snake (newHeadOf s).x (newHeadOf s).y

/-- Whether the next tick's head lands on the food (the `newHead.x ===
this.food.x && newHead.y === this.food.y` test of `update`, src/app.js:610). -/
def eatsFood (s : GameState) : Bool :=
  match s.food with
  | some f => decide ((newHeadOf s).x = f.x) && decide ((newHeadOf s).y = f.y)
  | none => false

/-- The scale and glow the renderer applies to the food sprite
(src/app.js:683-692): `const scale = this.food.scale || 1;
ctx.shadowBlur = 15 * scale; ctx.scale(scale, scale)`.  JS `||` takes the
fallback `1` when `scale` is falsy, i.e. equal to `0`. -/
structure FoodDraw where
  scale : ℚ
  shadowBlur : ℚ
deriving DecidableEq, Repr

/-- The draw parameters computed for the food sprite (src/app.js:683-692). -/
def drawFood (f : Food) : FoodDraw :=
  let scale : ℚ := if f.scale = 0 then 1 else f.scale
  { scale := scale, shadowBlur := 15 * scale }

/-- The states reachable through the public interface: the constructor state,
the five commands, a timer tick (which only fires while a timer exists), and
the `game.speed = 120` reset the UI performs before each `start()`
(src/app.js:1137). -/
inductive Reach : GameState → Prop where
  | ctor (cols rows : Nat) : Reach (initialState cols rows)
  | initStep (s : GameState) (rnd : Nat → Sample) :
      Reach s → Reach (init s rnd).1
  | startStep (s : GameState) (rnd : Nat → Sample) :
      Reach s → Reach (start s rnd).1
  | pauseStep (s : GameState) : Reach s → Reach (pause s)
  | resumeStep (s : GameState) : Reach s → Reach (resume s)
  | stopStep (s : GameState) : Reach s → Reach (stop s)
  | setDirStep (s : GameState) (dir : String) :
      Reach s → Reach (setDirection s dir)
  | tickStep (s : GameState) (rnd : Nat → Sample) :
      Reach s → s.gameLoop ≠ none → Reach (update s rnd).1
  | speedReset (s : GameState) : Reach s → Reach { s with speed := 120 }

/-- The states reachable from an `init()` by ticks on which no collision ended
the game (the scope of the score/length invariant). -/
inductive ReachTick : GameState → Prop where
  | base (s : GameState) (rnd : Nat → Sample) : ReachTick (init s rnd).1
  | tick (s : GameState) (rnd : Nat → Sample) :
      ReachTick s → collides s = false → ReachTick (update s rnd).1

/-- The four unit direction vectors of the `directions` table. -/
def isDir (v : Pos) : Prop :=
  v = { x := 0, y := -1 } ∨ v = { x := 0, y := 1 } ∨
    v = { x := -1, y := 0 } ∨ v = { x := 1, y := 0 }

/-- Direction sanity: both direction buffers hold unit vectors, and the
pending direction is never the exact reverse of the applied one. -/
def dirInv (s : GameState) : Prop :=
  isDir s.direction ∧ isDir s.nextDirection ∧
    ¬(s.direction.x + s.nextDirection.x = 0 ∧
      s.direction.y + s.nextDirection.y = 0)

/-- A live timer implies running-and-not-paused, and paused implies running
(so a no-op `pause()` can only happen with the timer already cancelled). -/
def timerInv (s : GameState) : Prop :=
  (s.gameLoop ≠ none → s.isRunning = true ∧ s.isPaused = false) ∧
    (s.isPaused = true → s.isRunning = true)

/-- The tick interval stays in `[60, 120]` and even (it starts at 120 and
only ever moves by `-2` while above 60). -/
def speedInv (s : GameState) : Prop :=
  60 ≤ s.speed ∧ s.speed ≤ 120 ∧ 2 ∣ s.speed

/-- A fixed random stream, for instantiating the claims on concrete runs. -/
def constRnd : Nat → Sample := fun _ => { x := 0, y := 0, k := 0 }

/-- The spec's scenario state: 10×10 grid, snake `[(5,5),(4,5),(3,5)]`
heading right, food at `(6,5)`, game running at the initial speed. -/
def scenarioState : GameState where
  cols := 10
  rows := 10
  snake := [{ x := 5, y := 5 }, { x := 4, y := 5 }, { x := 3, y := 5 }]
  food := some { x := 6, y := 5, type := "apple", scale := 1 }
  direction := { x := 1, y := 0 }
  nextDirection := { x := 1, y := 0 }
  score := 0
  gameLoop := some 120
  isRunning := true
  isPaused := false
  speed := 120

/-- A running state whose head sits on the right wall moving right, about to
collide on the next tick. -/
def wallState : GameState :=
  { scenarioState with
      snake := [{ x := 9, y := 5 }, { x := 8, y := 5 }, { x := 7, y := 5 }]
      score := 30 }

/-- A paused state (running, paused, timer cancelled) heading right. -/
def pausedState : GameState :=
  { scenarioState with isPaused := true, gameLoop := none }

/-- The scenario state with the food moved away from the snake's path, so the
next tick is a plain (non-eating) move. -/
def plainState : GameState :=
  { scenarioState with food := some { x := 0, y := 0, type := "apple", scale := 1 } }

/-- A random stream that always samples cell `(6, 5)`: running `init` on the
10×10 constructor state with it places the food directly in front of the
snake. -/
def rndSix : Nat → Sample := fun _ => { x := 6, y := 5, k := 0 }

/-- A user record and two concrete user maps for exercising `addScore`. -/
def bobUser : User := { password := "pw", loginHistory := [], scores := [] }

/-- The empty user map. -/
def usersEmpty : Users := fun _ => none

/-- A map holding exactly the user `bob`. -/
def usersBob : Users := fun name => if name = "bob" then some bobUser else none

/-- Every tick falls in exactly one of three cases: a collision, an eating
move, or a plain move. -/
lemma update_cases (s : GameState) :
    collides s = true ∨ (collides s = false ∧ eatsFood s = true) ∨
      (collides s = false ∧ eatsFood s = false) := by
  cases h1 : collides s <;> cases h2 : eatsFood s <;> simp

/-- A collision tick is exactly `gameOver`: the pending direction has been
applied, both flags are cleared, the timer is cancelled, and one
`gameOver(score)` event fires; snake, food, score and speed are untouched. -/
lemma update_collision_eq (s : GameState) (rnd : Nat → Sample)
    (h : collides s = true) :
    update s rnd =
      ({ s with direction := s.nextDirection, isRunning := false,
                isPaused := false, gameLoop := none },
       [Event.gameOver s.score]) := by
  rw [collides, Bool.or_eq_true, decide_eq_true_iff] at h
  simp only [newHeadOf] at h
  simp only [update, gameOver, stop]
  split
  · rfl
  next hb =>
    split
    next => rfl
    next hs =>
      exfalso
      rcases h with hb' | hs'
      · exact hb hb'
      · exact hs hs'

/-- An eating tick: the new head is pushed and the tail kept, the score grows
by 10 firing `onScoreChange`, the food is regenerated from the stream (then
its spawn-in scale advances one step), and above the 60ms floor the speed
drops by 2ms with the timer restarted at the new interval. -/
lemma update_eat_eq (s : GameState) (rnd : Nat → Sample)
    (hc : collides s = false) (he : eatsFood s = true) :
    update s rnd =
      ({ s with direction := s.nextDirection,
                snake := newHeadOf s :: s.snake,
                score := s.score + 10,
                food := foodBump (some (generateFood (newHeadOf s :: s.snake) rnd)),
                speed := if 60 < s.speed then s.speed - 2 else s.speed,
                gameLoop := if 60 < s.speed then some (s.speed - 2) else s.gameLoop },
       [Event.scoreChange (s.score + 10)]) := by
  rw [collides, Bool.or_eq_false_iff] at hc
  obtain ⟨hb, hs⟩ := hc
  rw [decide_eq_false_iff_not] at hb
  simp only [newHeadOf] at hb hs
  rw [eatsFood] at he
  simp only [update]
  rw [if_neg hb, if_neg (by rw [hs]; exact Bool.false_ne_true)]
  cases hf : s.food with
  | none => rw [hf] at he; exact absurd he Bool.false_ne_true
  | some f =>
    rw [hf] at he
    rw [Bool.and_eq_true, decide_eq_true_iff, decide_eq_true_iff] at he
    simp only [newHeadOf] at he
    simp only [hf, newHeadOf]
    rw [if_pos he]
    split_ifs <;> rfl

/-- A plain (non-eating, non-colliding) tick: the new head is pushed and the
tail popped, no event fires, and score, speed, timer and flags are untouched;
the food's spawn-in scale advances one step. -/
lemma update_noeat_eq (s : GameState) (rnd : Nat → Sample)
    (hc : collides s = false) (he : eatsFood s = false) :
    update s rnd =
      ({ s with direction := s.nextDirection,
                snake := (newHeadOf s :: s.snake).dropLast,
                food := foodBump s.food },
       []) := by
  rw [collides, Bool.or_eq_false_iff] at hc
  obtain ⟨hb, hs⟩ := hc
  rw [decide_eq_false_iff_not] at hb
  simp only [newHeadOf] at hb hs
  rw [eatsFood] at he
  simp only [update]
  rw [if_neg hb, if_neg (by rw [hs]; exact Bool.false_ne_true)]
  cases hf : s.food with
  | none => simp only [hf]; rfl
  | some f =>
    rw [hf] at he
    rw [Bool.and_eq_false_iff] at he
    simp only [newHeadOf] at he
    have hne :
        ¬((s.snake.headD { x := 0, y := 0 }).x + s.nextDirection.x = f.x ∧
          (s.snake.headD { x := 0, y := 0 }).y + s.nextDirection.y = f.y) := by
      rcases he with h | h <;> rw [decide_eq_false_iff_not] at h
      · exact fun hxy => h hxy.1
      · exact fun hxy => h hxy.2
    simp only [hf, newHeadOf]
    rw [if_neg hne]

/-- `init` resets both direction buffers to `(1, 0)` (heading right). -/
lemma init_direction (s : GameState) (rnd : Nat → Sample) :
    (init s rnd).1.direction = { x := 1, y := 0 } := rfl

/-- `init` resets the pending direction to `(1, 0)` as well. -/
lemma init_nextDirection (s : GameState) (rnd : Nat → Sample) :
    (init s rnd).1.nextDirection = { x := 1, y := 0 } := rfl

/-- `init` spawns a 3-cell snake. -/
lemma init_snake_length (s : GameState) (rnd : Nat → Sample) :
    (init s rnd).1.snake.length = 3 := rfl

/-- `init` resets the score to 0. -/
lemma init_score (s : GameState) (rnd : Nat → Sample) :
    (init s rnd).1.score = 0 := rfl

/-- `start` as a three-way case split on the two flags. -/
lemma start_eq (s : GameState) (rnd : Nat → Sample) :
    start s rnd =
      if s.isRunning && !s.isPaused then (s, [])
      else if s.isPaused then
        ({ s with isPaused := false, isRunning := true, gameLoop := some s.speed }, [])
      else
        ({ (init s rnd).1 with
            isRunning := true
            gameLoop := some (init s rnd).1.speed }, (init s rnd).2) := by
  rw [start]
  split_ifs <;> rfl

/-- Every tick (colliding or not) installs the pending direction as the
applied one (src/app.js:584 runs before any collision test). -/
lemma update_fst_direction (s : GameState) (rnd : Nat → Sample) :
    (update s rnd).1.direction = s.nextDirection := by
  rcases update_cases s with h | ⟨hc, he⟩ | ⟨hc, he⟩
  · rw [update_collision_eq s rnd h]
  · rw [update_eat_eq s rnd hc he]
  · rw [update_noeat_eq s rnd hc he]

/-- No tick changes the pending direction. -/
lemma update_fst_nextDirection (s : GameState) (rnd : Nat → Sample) :
    (update s rnd).1.nextDirection = s.nextDirection := by
  rcases update_cases s with h | ⟨hc, he⟩ | ⟨hc, he⟩
  · rw [update_collision_eq s rnd h]
  · rw [update_eat_eq s rnd hc he]
  · rw [update_noeat_eq s rnd hc he]

-- ===================================
-- Direction invariant (claim C3)
-- ===================================

lemma isDir_not_self_reverse {v : Pos} (h : isDir v) :
    ¬(v.x + v.x = 0 ∧ v.y + v.y = 0) := by
  rcases h with h | h | h | h <;> subst h <;> decide

lemma dirVec_isDir {d : String} {v : Pos} (h : dirVec d = some v) : isDir v := by
  unfold dirVec at h
  split at h <;> simp_all [isDir]

lemma setDirection_none {s : GameState} {dir : String}
    (hv : dirVec dir = none) : setDirection s dir = s := by
  simp only [setDirection, hv]

lemma setDirection_some {s : GameState} {dir : String} {v : Pos}
    (hv : dirVec dir = some v) :
    setDirection s dir =
      if s.direction.x + v.x = 0 ∧ s.direction.y + v.y = 0 then s
      else { s with nextDirection := v } := by
  simp only [setDirection, hv]

lemma dirInv_of_right {s : GameState}
    (hd : s.direction = { x := 1, y := 0 })
    (hn : s.nextDirection = { x := 1, y := 0 }) : dirInv s := by
  refine ⟨?_, ?_, ?_⟩
  · rw [hd]; exact Or.inr (Or.inr (Or.inr rfl))
  · rw [hn]; exact Or.inr (Or.inr (Or.inr rfl))
  · rw [hd, hn]; decide

/-- The direction invariant holds in every reachable state. -/
lemma reach_dirInv {s : GameState} (h : Reach s) : dirInv s := by
  induction h with
  | ctor cols rows => exact dirInv_of_right rfl rfl
  | initStep s rnd _ _ =>
    exact dirInv_of_right (init_direction s rnd) (init_nextDirection s rnd)
  | startStep s rnd _ ih =>
    rw [start_eq]
    split_ifs with h1 h2
    · exact ih
    · exact ih
    · exact dirInv_of_right (init_direction s rnd) (init_nextDirection s rnd)
  | pauseStep s _ ih =>
    rw [pause]; split_ifs with h1
    · exact ih
    · exact ih
  | resumeStep s _ ih =>
    rw [resume]; split_ifs with h1
    · exact ih
    · exact ih
  | stopStep s _ ih => exact ih
  | setDirStep s dir _ ih =>
    cases hv : dirVec dir with
    | none => rw [setDirection_none hv]; exact ih
    | some v =>
      rw [setDirection_some hv]
      split_ifs with hrev
      · exact ih
      · exact ⟨ih.1, dirVec_isDir hv, hrev⟩
  | tickStep s rnd _ hgl ih =>
    refine ⟨?_, ?_, ?_⟩
    · rw [update_fst_direction]; exact ih.2.1
    · rw [update_fst_nextDirection]; exact ih.2.1
    · rw [update_fst_direction, update_fst_nextDirection]
      exact isDir_not_self_reverse ih.2.1
  | speedReset s _ ih => exact ih

-- ===================================
-- Timer invariant (claim C8)
-- ===================================

/-- The timer invariant holds in every reachable state. -/
lemma reach_timerInv {s : GameState} (h : Reach s) : timerInv s := by
  induction h with
  | ctor cols rows =>
    exact ⟨fun h => absurd rfl h, fun h => (Bool.false_ne_true h).elim⟩
  | initStep s rnd _ ih => exact ih
  | startStep s rnd _ ih =>
    rw [start_eq]
    split_ifs with h1 h2
    · exact ih
    · exact ⟨fun _ => ⟨rfl, rfl⟩, fun _ => rfl⟩
    · refine ⟨fun _ => ⟨rfl, ?_⟩, fun _ => rfl⟩
      simpa using h2
  | pauseStep s _ ih =>
    rw [pause]
    split_ifs with h1
    · exact ih
    · simp only [Bool.or_eq_true, Bool.not_eq_true', not_or] at h1
      exact ⟨fun h => absurd rfl h, fun _ => by
        simpa using h1.1⟩
  | resumeStep s _ ih =>
    rw [resume]
    split_ifs with h1
    · exact ih
    · simp only [Bool.not_eq_true', Bool.not_eq_false] at h1
      exact ⟨fun _ => ⟨ih.2 h1, rfl⟩, fun h => (Bool.false_ne_true h).elim⟩
  | stopStep s _ ih =>
    exact ⟨fun h => absurd rfl h, fun h => (Bool.false_ne_true h).elim⟩
  | setDirStep s dir _ ih =>
    cases hv : dirVec dir with
    | none => rw [setDirection_none hv]; exact ih
    | some v =>
      rw [setDirection_some hv]
      split_ifs with hrev
      · exact ih
      · exact ih
  | tickStep s rnd _ hgl ih =>
    obtain ⟨hr, hp⟩ := ih.1 hgl
    rcases update_cases s with h | ⟨hc, he⟩ | ⟨hc, he⟩
    · rw [update_collision_eq s rnd h]
      exact ⟨fun h => absurd rfl h, fun h => (Bool.false_ne_true h).elim⟩
    · rw [update_eat_eq s rnd hc he]
      exact ⟨fun _ => ⟨hr, hp⟩, fun _ => hr⟩
    · rw [update_noeat_eq s rnd hc he]
      exact ih
  | speedReset s _ ih => exact ih

-- ===================================
-- Speed invariant (claim C4)
-- ===================================

/-- The speed invariant holds in every reachable state. -/
lemma reach_speedInv {s : GameState} (h : Reach s) : speedInv s := by
  induction h with
  | ctor cols rows => refine ⟨?_, ?_, ?_⟩ <;> norm_num [initialState]
  | initStep s rnd _ ih => exact ih
  | startStep s rnd _ ih =>
    rw [start_eq]
    split_ifs with h1 h2
    · exact ih
    · exact ih
    · exact ih
  | pauseStep s _ ih =>
    rw [pause]; split_ifs with h1
    · exact ih
    · exact ih
  | resumeStep s _ ih =>
    rw [resume]; split_ifs with h1
    · exact ih
    · exact ih
  | stopStep s _ ih => exact ih
  | setDirStep s dir _ ih =>
    cases hv : dirVec dir with
    | none => rw [setDirection_none hv]; exact ih
    | some v =>
      rw [setDirection_some hv]
      split_ifs with hrev
      · exact ih
      · exact ih
  | tickStep s rnd _ hgl ih =>
    obtain ⟨h60, h120, heven⟩ := ih
    rcases update_cases s with h | ⟨hc, he⟩ | ⟨hc, he⟩
    · rw [update_collision_eq s rnd h]
      exact ⟨h60, h120, heven⟩
    · rw [update_eat_eq s rnd hc he]
      refine ⟨?_, ?_, ?_⟩ <;>
        simp only [speedInv] <;> split_ifs with hs <;> omega
    · rw [update_noeat_eq s rnd hc he]
      exact ⟨h60, h120, heven⟩
  | speedReset s _ ih => refine ⟨?_, ?_, ?_⟩ <;> norm_num

-- ===================================
-- generateFood loop (claim C7)
-- ===================================

/-- Behaviour of the rejection-sampling loop from any intermediate attempt
count: its result always has scale 0, is one of the samples drawn before the
100th, and is on the snake only if every remaining sample was. -/
lemma genFoodLoop_spec (snake : List Pos) (rnd : Nat → Sample) :
    ∀ remaining attempts, attempts + remaining = 100 → 1 ≤ remaining →
      (genFoodLoop snake rnd attempts remaining).scale = 0 ∧
      (∃ i, attempts ≤ i ∧ i < 100 ∧
        genFoodLoop snake rnd attempts remaining = sampleFood (rnd i)) ∧
      (isOnSnake snake (genFoodLoop snake rnd attempts remaining).x
          (genFoodLoop snake rnd attempts remaining).y = true →
        ∀ j, attempts ≤ j → j < 100 →
          isOnSnake snake (sampleFood (rnd j)).x (sampleFood (rnd j)).y = true) := by
  intro remaining
  induction remaining with
  | zero => intro attempts h h1; exact absurd h1 (by omega)
  | succ rem ih =>
    intro attempts h h1
    simp only [genFoodLoop]
    split_ifs with hcond
    · obtain ⟨hsc, ⟨i, hi1, hi2, hieq⟩, hall⟩ :=
        ih (attempts + 1) (by omega) (by omega)
      refine ⟨hsc, ⟨i, by omega, hi2, hieq⟩, ?_⟩
      intro hres j hj1 hj2
      rcases Nat.eq_or_lt_of_le hj1 with rfl | hlt
      · exact hcond.1
      · exact hall hres j hlt hj2
    · refine ⟨rfl, ⟨attempts, le_refl _, by omega, rfl⟩, ?_⟩
      intro hres j hj1 hj2
      have h99 : ¬(attempts + 1 < 100) := fun hlt => hcond ⟨hres, hlt⟩
      have hj : j = attempts := by omega
      subst hj
      exact hres

-- ===================================
-- Score/length invariant (claim C9)
-- ===================================

/-- Along any run of non-ending ticks from `init()`, the score stays equal to
10 times the number of cells grown since the 3-cell spawn. -/
lemma reachTick_score_length {s : GameState} (h : ReachTick s) :
    s.score = 10 * (s.snake.length - 3) ∧ 3 ≤ s.snake.length := by
  induction h with
  | base s rnd =>
    refine ⟨?_, ?_⟩
    · rw [init_score, init_snake_length]
    · rw [init_snake_length]
  | tick s rnd _ hc ih =>
    obtain ⟨hsc, hlen⟩ := ih
    cases he : eatsFood s with
    | true =>
      rw [update_eat_eq s rnd hc he]
      refine ⟨?_, ?_⟩
      · show s.score + 10 = 10 * ((newHeadOf s :: s.snake).length - 3)
        simp only [List.length_cons]
        omega
      · show 3 ≤ (newHeadOf s :: s.snake).length
        simp only [List.length_cons]
        omega
    | false =>
      rw [update_noeat_eq s rnd hc he]
      refine ⟨?_, ?_⟩
      · show s.score = 10 * ((newHeadOf s :: s.snake).dropLast.length - 3)
        simp only [List.length_dropLast, List.length_cons]
        omega
      · show 3 ≤ (newHeadOf s :: s.snake).dropLast.length
        simp only [List.length_dropLast, List.length_cons]
        omega

end SnakeGame

open SnakeGame

/-- The `if (scores.length > 20) scores = scores.slice(0, 20)` truncation of
`addScore` is extensionally just `take 20`. -/
lemma truncate_twenty_eq (l : List ScoreRecord) :
    (if 20 < l.length then l.take 20 else l) = l.take 20 := by
  split_ifs with h
  · rfl
  · exact (List.take_of_length_le (by omega)).symm

-- ===================================
-- Claims
-- ===================================

/-- C1: on a tick whose new head equals the food cell, `update` adds exactly
10 to the score and fires `onScoreChange` with the new score, regenerates the
food, and does not pop the tail, so the snake grows by exactly one cell; on a
tick whose new head misses the food, the tail is popped and the length is
unchanged.  In particular, on a 10×10 grid with snake
`[(5,5),(4,5),(3,5)]`, direction right and food at `(6,5)`, one tick yields
head `(6,5)`, score 10, length 4, with tail cell `(3,5)` retained. -/
theorem claim_C1 :
    (∀ (s : GameState) (rnd : Nat → Sample),
      collides s = false → eatsFood s = true →
        (update s rnd).1.score = s.score + 10 ∧
        (update s rnd).2 = [Event.scoreChange (s.score + 10)] ∧
        (update s rnd).1.snake = newHeadOf s :: s.snake ∧
        (update s rnd).1.snake.length = s.snake.length + 1 ∧
        (update s rnd).1.food =
          foodBump (some (generateFood (newHeadOf s :: s.snake) rnd))) ∧
    (∀ (s : GameState) (rnd : Nat → Sample),
      collides s = false → eatsFood s = false →
        (update s rnd).1.snake = (newHeadOf s :: s.snake).dropLast ∧
        (update s rnd).1.snake.length = s.snake.length ∧
        (update s rnd).1.score = s.score ∧
        (update s rnd).2 = []) ∧
    (∀ rnd : Nat → Sample,
      (update scenarioState rnd).1.snake =
        [{ x := 6, y := 5 }, { x := 5, y := 5 }, { x := 4, y := 5 }, { x := 3, y := 5 }] ∧
      (update scenarioState rnd).1.score = 10 ∧
      (update scenarioState rnd).1.snake.length = 4 ∧
      (update scenarioState rnd).2 = [Event.scoreChange 10]) := by
  refine ⟨fun s rnd hc he => ?_, fun s rnd hc he => ?_, fun rnd => ?_⟩
  · rw [update_eat_eq s rnd hc he]
    exact ⟨rfl, rfl, rfl, rfl, rfl⟩
  · rw [update_noeat_eq s rnd hc he]
    refine ⟨rfl, ?_, rfl, rfl⟩
    show (newHeadOf s :: s.snake).dropLast.length = s.snake.length
    simp
  · rw [update_eat_eq scenarioState rnd (by decide) (by decide)]
    exact ⟨rfl, rfl, rfl, rfl⟩

/-- Witness for C1: the eating branch on the spec's scenario state, and the
non-eating branch on the same state with the food moved away. -/
theorem claim_C1_witness :
    collides scenarioState = false ∧ eatsFood scenarioState = true ∧
    (update scenarioState constRnd).1.score = scenarioState.score + 10 ∧
    collides plainState = false ∧ eatsFood plainState = false ∧
    (update plainState constRnd).1.score = plainState.score ∧
    (update scenarioState constRnd).1.snake.length = 4 :=
  ⟨by decide, by decide,
   (claim_C1.1 scenarioState constRnd (by decide) (by decide)).1,
   by decide, by decide,
   (claim_C1.2.1 plainState constRnd (by decide) (by decide)).2.2.1,
   (claim_C1.2.2 constRnd).2.2.1⟩

/-- C2: a tick whose new head leaves the grid or lands on a snake cell ends
the game: `update` returns the pre-tick state with only the pending direction
applied, both running flags cleared and the timer cancelled — snake, food,
score and speed frozen — and the single event fired is `gameOver` with the
pre-tick score.  With the timer gone (`gameLoop = none`), no further tick can
fire, so the callback cannot fire again for this game. -/
theorem claim_C2 :
    ∀ (s : GameState) (rnd : Nat → Sample), collides s = true →
      update s rnd =
        ({ s with direction := s.nextDirection, isRunning := false,
                  isPaused := false, gameLoop := none },
         [Event.gameOver s.score]) :=
  fun s rnd h => update_collision_eq s rnd h

/-- Witness for C2: a head on the right wall moving right. -/
theorem claim_C2_witness :
    collides wallState = true ∧
    update wallState constRnd =
      ({ wallState with
          direction := wallState.nextDirection
          isRunning := false
          isPaused := false
          gameLoop := none },
       [Event.gameOver wallState.score]) :=
  ⟨by decide, claim_C2 wallState constRnd (by decide)⟩

/-- C3: `setDirection` is a no-op whenever the requested unit vector is the
exact opposite of the currently applied direction; and in every reachable
state the pending direction — the one the next tick will apply — is never the
exact opposite of the currently applied one, so the direction applied on a
tick never reverses the direction applied on the previous tick. -/
theorem claim_C3 :
    (∀ (s : GameState) (d : String) (v : Pos),
      dirVec d = some v →
      s.direction.x + v.x = 0 → s.direction.y + v.y = 0 →
      setDirection s d = s) ∧
    (∀ s : GameState, Reach s →
      ¬(s.direction.x + s.nextDirection.x = 0 ∧
        s.direction.y + s.nextDirection.y = 0)) ∧
    (∀ (s : GameState) (rnd : Nat → Sample), Reach s →
      (update s rnd).1.direction = s.nextDirection ∧
      ¬((update s rnd).1.direction.x + s.direction.x = 0 ∧
        (update s rnd).1.direction.y + s.direction.y = 0)) := by
  refine ⟨?_, ?_, ?_⟩
  · intro s d v hv hx hy
    rw [setDirection_some hv, if_pos ⟨hx, hy⟩]
  · intro s hs
    exact (reach_dirInv hs).2.2
  · intro s rnd hs
    have h := (reach_dirInv hs).2.2
    refine ⟨update_fst_direction s rnd, ?_⟩
    rw [update_fst_direction]
    rintro ⟨h1, h2⟩
    exact h ⟨by omega, by omega⟩

/-- Witness for C3: reversing right into left is ignored on the constructor
state, which satisfies the invariant, and its tick applies the pending
direction. -/
theorem claim_C3_witness :
    setDirection (initialState 10 10) "left" = initialState 10 10 ∧
    ¬((initialState 10 10).direction.x + (initialState 10 10).nextDirection.x = 0 ∧
      (initialState 10 10).direction.y + (initialState 10 10).nextDirection.y = 0) ∧
    (update (initialState 10 10) constRnd).1.direction =
      (initialState 10 10).nextDirection :=
  ⟨claim_C3.1 (initialState 10 10) "left" { x := -1, y := 0 }
      (by decide) (by decide) (by decide),
   claim_C3.2.1 (initialState 10 10) (Reach.ctor 10 10),
   (claim_C3.2.2 (initialState 10 10) constRnd (Reach.ctor 10 10)).1⟩

/-- C4: in every reachable state the tick interval lies in `[60, 120]` ms; a
tick never increases it; a food-eating tick decreases it by exactly 2 ms when
it is above 60 ms and leaves it unchanged at 60 ms; a non-eating tick leaves
it unchanged; and it never drops below 60 ms. -/
theorem claim_C4 :
    ∀ s : GameState, Reach s →
      60 ≤ s.speed ∧ s.speed ≤ 120 ∧
      ∀ rnd : Nat → Sample,
        (update s rnd).1.speed ≤ s.speed ∧
        (collides s = false → eatsFood s = true →
          (60 < s.speed → (update s rnd).1.speed = s.speed - 2) ∧
          (s.speed = 60 → (update s rnd).1.speed = 60)) ∧
        (collides s = false → eatsFood s = false →
          (update s rnd).1.speed = s.speed) ∧
        60 ≤ (update s rnd).1.speed := by
  intro s hs
  obtain ⟨h60, h120, heven⟩ := reach_speedInv hs
  refine ⟨h60, h120, fun rnd => ?_⟩
  rcases update_cases s with h | ⟨hc, he⟩ | ⟨hc, he⟩
  · rw [update_collision_eq s rnd h]
    refine ⟨le_refl _, fun hcf => ?_, fun hcf => ?_, h60⟩ <;>
      · rw [hcf] at h; exact absurd h Bool.false_ne_true
  · rw [update_eat_eq s rnd hc he]
    refine ⟨?_, fun _ _ => ⟨fun hgt => ?_, fun heq => ?_⟩, fun _ hef => ?_, ?_⟩
    · show (if 60 < s.speed then s.speed - 2 else s.speed) ≤ s.speed
      split_ifs <;> omega
    · show (if 60 < s.speed then s.speed - 2 else s.speed) = s.speed - 2
      rw [if_pos hgt]
    · show (if 60 < s.speed then s.speed - 2 else s.speed) = 60
      rw [if_neg (by omega)]
      exact heq
    · rw [he] at hef; exact Bool.noConfusion hef
    · show 60 ≤ (if 60 < s.speed then s.speed - 2 else s.speed)
      split_ifs <;> omega
  · rw [update_noeat_eq s rnd hc he]
    refine ⟨le_refl _, fun _ het => ?_, fun _ _ => rfl, h60⟩
    rw [he] at het; exact absurd het Bool.false_ne_true

/-- Witness for C4: the constructor state (a plain tick), and the state right
after `init` with the food placed in front of the snake (an eating tick at
120 ms, which drops the interval to 118 ms). -/
theorem claim_C4_witness :
    60 ≤ (init (initialState 10 10) rndSix).1.speed ∧
    (update (init (initialState 10 10) rndSix).1 constRnd).1.speed =
      (init (initialState 10 10) rndSix).1.speed - 2 ∧
    (update (initialState 10 10) constRnd).1.speed =
      (initialState 10 10).speed :=
  ⟨(claim_C4 _ (Reach.initStep _ rndSix (Reach.ctor 10 10))).1,
   (((claim_C4 _ (Reach.initStep _ rndSix (Reach.ctor 10 10))).2.2 constRnd).2.1
      (by decide) (by decide)).1 (by decide),
   ((claim_C4 _ (Reach.ctor 10 10)).2.2 constRnd).2.2.1 (by decide) (by decide)⟩

/-- C5 as stated is false: the renderer computes `this.food.scale || 1`, and
JS `||` takes the fallback `1` when the scale is `0`, so at growth 0 the
sprite is drawn at full size, not as an invisible point. -/
theorem claim_C5_counterexample :
    ¬(∀ f : Food, 0 ≤ f.scale → f.scale ≤ 1 → (drawFood f).scale = f.scale) := by
  intro h
  have h0 := h { x := 0, y := 0, type := "apple", scale := 0 }
    (le_refl 0) (by norm_num)
  simp [drawFood] at h0

/-- C5 amended: for growth in the half-open interval `(0, 1]` the sprite's
uniform scale equals the growth and the glow blur is `15 ×` growth
(proportional); at growth exactly 0 the `|| 1` fallback draws the sprite at
full size with full glow. -/
theorem claim_C5 :
    (∀ f : Food, 0 < f.scale → f.scale ≤ 1 →
      drawFood f = { scale := f.scale, shadowBlur := 15 * f.scale }) ∧
    (∀ f : Food, f.scale = 0 →
      drawFood f = { scale := 1, shadowBlur := 15 }) := by
  constructor
  · intro f h0 h1
    simp [drawFood, h0.ne']
  · intro f h
    simp [drawFood, h]

/-- Witness for C5: growth 1/2 is drawn scaled by 1/2 with blur 15/2; growth
0 is drawn at full size. -/
theorem claim_C5_witness :
    drawFood { x := 0, y := 0, type := "apple", scale := 1/2 } =
      { scale := 1/2, shadowBlur := 15 * (1/2 : ℚ) } ∧
    drawFood { x := 0, y := 0, type := "apple", scale := 0 } =
      { scale := 1, shadowBlur := 15 } :=
  ⟨claim_C5.1 { x := 0, y := 0, type := "apple", scale := 1/2 }
      (by norm_num) (by norm_num),
   claim_C5.2 { x := 0, y := 0, type := "apple", scale := 0 } rfl⟩

/-- C6 as stated is false: `setDirection` performs no phase check, so while
the game is paused it still records a new pending direction. -/
theorem claim_C6_counterexample :
    pausedState.isPaused = true ∧ setDirection pausedState "up" ≠ pausedState := by
  exact ⟨rfl, by decide⟩

/-- C6 amended: the engine's `setDirection` is phase-independent — its effect
commutes with any change of the running/paused flags and timer handle, since
it only reads and writes the direction buffers (the phase ≠ Running guard is
enforced by the UI layer's key handler, src/app.js:1164, not by the engine). -/
theorem claim_C6 :
    ∀ (s : GameState) (d : String) (r p : Bool) (gl : Option Nat),
      setDirection { s with isRunning := r, isPaused := p, gameLoop := gl } d =
        { setDirection s d with isRunning := r, isPaused := p, gameLoop := gl } := by
  intro s d r p gl
  cases hv : dirVec d with
  | none => rw [setDirection_none hv, setDirection_none hv]
  | some v =>
    rw [setDirection_some hv, setDirection_some hv]
    have hcond :
        ({ s with isRunning := r, isPaused := p, gameLoop := gl } :
          GameState).direction = s.direction := rfl
    rw [hcond]
    split_ifs <;> rfl

/-- C7: `generateFood` always returns one of the first 100 samples of the
stream (so it terminates after at most 100 draws, without failing), the
returned food has scale 0, and the returned cell lies on the snake only if
every one of the 100 sampled cells did — equivalently, if any sample was off
the snake, so is the result. -/
theorem claim_C7 :
    ∀ (snake : List Pos) (rnd : Nat → Sample),
      (generateFood snake rnd).scale = 0 ∧
      (∃ i, i < 100 ∧ generateFood snake rnd = sampleFood (rnd i)) ∧
      (isOnSnake snake (generateFood snake rnd).x (generateFood snake rnd).y = true →
        ∀ j, j < 100 →
          isOnSnake snake (sampleFood (rnd j)).x (sampleFood (rnd j)).y = true) := by
  intro snake rnd
  obtain ⟨h1, ⟨i, _, hi2, hieq⟩, h3⟩ :=
    genFoodLoop_spec snake rnd 100 0 (by omega) (by omega)
  exact ⟨h1, ⟨i, hi2, hieq⟩, fun hres j hj => h3 hres j (Nat.zero_le j) hj⟩

/-- Witness for C7: on a single-cell grid fully covered by the snake, every
sample overlaps, and the accepted fallback placement overlaps too. -/
theorem claim_C7_witness :
    (generateFood [{ x := 0, y := 0 }] constRnd).scale = 0 ∧
    isOnSnake [{ x := 0, y := 0 }]
      (generateFood [{ x := 0, y := 0 }] constRnd).x
      (generateFood [{ x := 0, y := 0 }] constRnd).y = true ∧
    isOnSnake [{ x := 0, y := 0 }]
      (sampleFood (constRnd 7)).x (sampleFood (constRnd 7)).y = true :=
  ⟨(claim_C7 [{ x := 0, y := 0 }] constRnd).1,
   by decide,
   (claim_C7 [{ x := 0, y := 0 }] constRnd).2.2 (by decide) 7 (by decide)⟩

/-- C8: `pause` is idempotent on every state, and from any reachable state it
leaves no live timer (`gameLoop = none`), so no tick — the only source of
score or board changes — can fire until `resume` or `start` recreates one. -/
theorem claim_C8 :
    ∀ s : GameState,
      pause (pause s) = pause s ∧ (Reach s → (pause s).gameLoop = none) := by
  intro s
  constructor
  · by_cases h1 : (!s.isRunning || s.isPaused) = true
    · have he : pause s = s := by rw [pause, if_pos h1]
      rw [he]
      exact he
    · have he : pause s = { s with isPaused := true, gameLoop := none } := by
        rw [pause, if_neg h1]
      rw [he, pause, if_pos (by simp)]
  · intro hs
    have K := reach_timerInv hs
    rw [pause]
    split_ifs with h1
    · cases hgl : s.gameLoop with
      | none => rfl
      | some n =>
        obtain ⟨hr, hp⟩ := K.1 (by rw [hgl]; exact Option.some_ne_none n)
        rw [hr, hp] at h1
        simp at h1
    · rfl

/-- Witness for C8: the constructor state. -/
theorem claim_C8_witness :
    pause (pause (initialState 10 10)) = pause (initialState 10 10) ∧
    (pause (initialState 10 10)).gameLoop = none :=
  ⟨(claim_C8 (initialState 10 10)).1,
   (claim_C8 (initialState 10 10)).2 (Reach.ctor 10 10)⟩

/-- C9: along any run of ticks from `init()` on which the game did not end,
the score equals 10 times the number of cells the snake has grown beyond its
3-cell spawn: `score = 10 * (length - 3)`. -/
theorem claim_C9 :
    ∀ s : GameState, ReachTick s → s.score = 10 * (s.snake.length - 3) :=
  fun _ h => (reachTick_score_length h).1

/-- Witness for C9: the state right after `init`. -/
theorem claim_C9_witness :
    (init (initialState 10 10) constRnd).1.score =
      10 * ((init (initialState 10 10) constRnd).1.snake.length - 3) :=
  claim_C9 _ (ReachTick.base (initialState 10 10) constRnd)

/-- C10: `addScore` leaves the stored map entirely unchanged when no record
exists for the username; when one exists, the new score record is prepended
(most recent first) and the list is truncated to at most 20 entries. -/
theorem claim_C10 :
    ∀ (users : Users) (name : String) (score : Nat) (date : String),
      (DataStore.getUser users name = none →
        DataStore.addScore users name score date = users) ∧
      (∀ u : User, DataStore.getUser users name = some u →
        DataStore.getUser (DataStore.addScore users name score date) name =
          some { u with scores :=
            (({ score := score, date := date } : ScoreRecord) :: u.scores).take 20 } ∧
        ((({ score := score, date := date } : ScoreRecord) :: u.scores).take 20).length ≤ 20 ∧
        ((({ score := score, date := date } : ScoreRecord) :: u.scores).take 20).head? =
          some { score := score, date := date }) := by
  intro users name score date
  constructor
  · intro h
    simp only [DataStore.getUser] at h
    simp only [DataStore.addScore, DataStore.getUser, h]
  · intro u hu
    simp only [DataStore.getUser] at hu
    refine ⟨?_, ?_, ?_⟩
    · simp only [DataStore.addScore, DataStore.getUser, DataStore.saveUser, hu,
        if_pos rfl]
      rw [truncate_twenty_eq]
      simp
    · rw [List.length_take]
      exact min_le_left _ _
    · rw [show (20 : Nat) = 19 + 1 from rfl, List.take_succ_cons]
      rfl

/-- Witness for C10: an absent user leaves the map unchanged; adding a score
for `bob` prepends the record. -/
theorem claim_C10_witness :
    DataStore.addScore usersEmpty "alice" 5 "d" = usersEmpty ∧
    DataStore.getUser (DataStore.addScore usersBob "bob" 5 "d") "bob" =
      some { bobUser with scores :=
        (({ score := 5, date := "d" } : ScoreRecord) :: bobUser.scores).take 20 } :=
  ⟨(claim_C10 usersEmpty "alice" 5 "d").1 rfl,
   ((claim_C10 usersBob "bob" 5 "d").2 bobUser rfl).1⟩

end Tanchishe
